import Mathlib

/-!
Verification development for an Apache combined-access-log aggregator
(`apache_combined_log_parser.py`).

The Python source is shallowly embedded below:

* Python dicts with string keys and integer values become association lists
  (`Dict`) with Python lookup/update semantics (`dictGet?`, `dictSet`); Python
  dict equality (`==`) is extensional and order-insensitive, modelled by
  `dictEquiv`.
* `shlex.split` (POSIX mode, `whitespace_split=True`, no comment chars) is
  `shlexSplit`; its two `ValueError`s are `PyErr.noClosingQuotation` and
  `PyErr.noEscapedCharacter`.
* `str.split()` / `str.split("/")` / `int(...)` / `str.startswith` /
  substring containment (`in`) are `pySplitWs`, `pySplitOn`, `pyInt`,
  `pyStartswith`, `strContains`.
* `urlparse(...).netloc` (Python 2 `urlparse.urlsplit`) is `pyNetloc`.
  The stdlib raise for mismatched IPv6 brackets in the netloc is omitted:
  no claim depends on such referrers.
* `parse_log_file` processes the list of lines of one file, failing fast on
  the first line whose extraction raises, exactly as the Python loop does.
* The class `LogResults` has mutable default arguments
  (`customer_usage={}`, `popular_urls={}`): every `LogResults()` constructed
  with no arguments aliases the same two class-level default dicts, and
  `reduce_records` builds its result inside those shared dicts.  This
  aliasing is modelled explicitly: `LogResultsRef` keeps each dict field as a
  `MapRef` (either `.shared`, aliasing the corresponding default dict held in
  `PyState`, or `.own d`, a fresh dict), and `reduce_records` threads the
  `PyState` holding the two default dicts.  `reduce_recordsPure` is the value
  a single `reduce_records` call computes on records with freshly owned
  dicts at a pristine program state (both default dicts still empty), i.e.
  the value-level merge.
-/

namespace ApacheLog

/-! ## Python dictionaries as association lists -/

/-- A Python dict with string keys and integer values, as an association
list.  Entry order models insertion order; dict `==` ignores it. -/
abbrev Dict := List (String × Int)

/-- Lookup: `d[k]` as an `Option` (`None` when the key is absent). -/
def dictGet? : Dict → String → Option Int
  | [], _ => none
  | (k0, v) :: rest, k => if k0 = k then some v else dictGet? rest k

/-- Python `d.get(k, v0)`. -/
def dictGetD (d : Dict) (k : String) (v0 : Int) : Int :=
  (dictGet? d k).getD v0

/-- Python `d[k] = v`: replace the entry if the key is present, else append. -/
def dictSet : Dict → String → Int → Dict
  | [], k, v => [(k, v)]
  | (k0, v0) :: rest, k, v =>
    if k0 = k then (k, v) :: rest else (k0, v0) :: dictSet rest k v

/-- Python `d.keys()`. -/
def dictKeys (d : Dict) : List String := d.map Prod.fst

/-- Sum of all values of a dict (used for the conservation invariant). -/
def dictSum (d : Dict) : Int := (d.map Prod.snd).sum

/-- Python dict equality `d1 == d2`: extensional, order-insensitive. -/
def dictEquiv (d1 d2 : Dict) : Prop := ∀ k, dictGet? d1 k = dictGet? d2 k

/-! ## Python string primitives used by the source -/

/-- Python string whitespace (`str.split()` / `int()` stripping):
space, tab, newline, carriage return, vertical tab, form feed. -/
def pyStrWs (c : Char) : Bool :=
  c = ' ' || c = '\t' || c = '\n' || c = '\r' || c = '\x0b' || c = '\x0c'

/-- Helper for `pySplitWs`: accumulates the current word (reversed). -/
def splitWsAux : List Char → List Char → List String
  | [], [] => []
  | [], acc => [String.mk acc.reverse]
  | c :: rest, acc =>
    if pyStrWs c then
      match acc with
      | [] => splitWsAux rest []
      | _ => String.mk acc.reverse :: splitWsAux rest []
    else splitWsAux rest (c :: acc)

/-- Python `s.split()` with no argument: split on whitespace runs,
discarding empty strings. -/
def pySplitWs (s : String) : List String := splitWsAux s.toList []

/-- Helper for `pySplitOn`: accumulates the current segment (reversed). -/
def splitOnCharAux (sep : Char) : List Char → List Char → List String
  | [], acc => [String.mk acc.reverse]
  | c :: rest, acc =>
    if c = sep then String.mk acc.reverse :: splitOnCharAux sep rest []
    else splitOnCharAux sep rest (c :: acc)

/-- Python `s.split(sep)` for a one-character separator: split at every
occurrence, keeping empty segments. -/
def pySplitOn (sep : Char) (s : String) : List String :=
  splitOnCharAux sep s.toList []

/-- Decimal digit accumulator for `pyInt`. -/
def digitsVal : List Char → Nat → Option Nat
  | [], acc => some acc
  | c :: rest, acc =>
    if c.isDigit then digitsVal rest (acc * 10 + (c.toNat - '0'.toNat))
    else none

/-- A nonempty all-digit string as a `Nat`, else `none`. -/
def digitsToNat : List Char → Option Nat
  | [] => none
  | cs => digitsVal cs 0

/-- Python 2 `int(s)` on a string: strip whitespace, allow one optional
leading sign, then a nonempty run of decimal digits; anything else raises
`ValueError` (modelled as `none`).  Note signed input is accepted. -/
def pyInt (s : String) : Option Int :=
  let cs := ((s.toList.dropWhile pyStrWs).reverse.dropWhile pyStrWs).reverse
  match cs with
  | '+' :: ds => (digitsToNat ds).map (fun n => (n : Int))
  | '-' :: ds => (digitsToNat ds).map (fun n => -(n : Int))
  | ds => (digitsToNat ds).map (fun n => (n : Int))

/-- Python `s.startswith(p)`. -/
def pyStartswith (s p : String) : Bool := p.toList.isPrefixOf s.toList

/-- Substring search on char lists: does `needle` occur in the list? -/
def listContainsSub (needle : List Char) : List Char → Bool
  | [] => needle.isEmpty
  | c :: rest => needle.isPrefixOf (c :: rest) || listContainsSub needle rest

/-- Python `needle in hay` for strings (substring containment). -/
def strContains (hay needle : String) : Bool :=
  listContainsSub needle.toList hay.toList

/-! ## `urlparse(...).netloc` (Python 2 `urlparse.urlsplit`) -/

/-- Characters allowed in a URL scheme (`urlparse.scheme_chars`). -/
def schemeChar (c : Char) : Bool :=
  c.isAlpha || c.isDigit || c = '+' || c = '-' || c = '.'

/-- `urlparse._splitnetloc(url, 2)` restricted to the netloc component:
everything after the `//` up to the first of `/`, `?`, `#`. -/
def splitnetloc (cs : List Char) : List Char :=
  cs.takeWhile (fun c => !(c = '/' || c = '?' || c = '#'))

/-- The scheme-stripping phase of `urlsplit`: if the text before the first
`:` is `http` (the fast path) or consists of scheme characters and the
remainder is not a bare port number, drop `scheme:`. -/
def stripScheme (cs : List Char) : List Char :=
  match cs.findIdx? (fun c => c = ':') with
  | none => cs
  | some i =>
    if 0 < i then
      if cs.take i = ['h', 't', 't', 'p'] then cs.drop (i + 1)
      else if (cs.take i).all schemeChar then
        let rest := cs.drop (i + 1)
        if rest.isEmpty || !(rest.all Char.isDigit) then rest else cs
      else cs
    else cs

/-- `urlparse(url).netloc`: after scheme stripping, the `//`-introduced
network location, else the empty string.  (The stdlib `ValueError` for
mismatched IPv6 brackets inside the netloc is not modelled.) -/
def pyNetloc (url : String) : String :=
  let cs := stripScheme url.toList
  if cs.take 2 = ['/', '/'] then String.mk (splitnetloc (cs.drop 2)) else ""

/-! ## `shlex.split` (POSIX mode) -/

/-- The exceptions the parsing pipeline can raise. -/
inductive PyErr
  /-- `ValueError("No closing quotation")` from `shlex`. -/
  | noClosingQuotation
  /-- `ValueError("No escaped character")` from `shlex`. -/
  | noEscapedCharacter
  /-- `IndexError` from sequence indexing. -/
  | indexError
  /-- `ValueError` from `int()` on a non-numeric string. -/
  | valueErrorInt
deriving DecidableEq

/-- `shlex.whitespace`: space, tab, carriage return, newline. -/
def shlexWs (c : Char) : Bool := c = ' ' || c = '\t' || c = '\r' || c = '\n'

/-- Tokenizer mode: outside quotes, inside single quotes, inside double
quotes. -/
inductive ShMode
  | normal
  | inSingle
  | inDouble

/-- The `shlex` POSIX tokenizer loop.  `cur` is the token being built
(reversed), `none` when no token is open; `acc` holds finished tokens
(reversed).  Quote characters are stripped; inside single quotes everything
is literal; inside double quotes a backslash escapes only `"` and `\`;
outside quotes a backslash escapes the next character.  End of input inside
a quote or right after a backslash is an error. -/
def shlexRun : List Char → ShMode → Option (List Char) → List String →
    Except PyErr (List String)
  | [], .normal, none, acc => .ok acc.reverse
  | [], .normal, some t, acc => .ok (String.mk t.reverse :: acc).reverse
  | [], .inSingle, _, _ => .error .noClosingQuotation
  | [], .inDouble, _, _ => .error .noClosingQuotation
  | c :: rest, .normal, cur, acc =>
    if shlexWs c then
      match cur with
      | none => shlexRun rest .normal none acc
      | some t => shlexRun rest .normal none (String.mk t.reverse :: acc)
    else if c = '\'' then shlexRun rest .inSingle (some (cur.getD [])) acc
    else if c = '"' then shlexRun rest .inDouble (some (cur.getD [])) acc
    else if c = '\\' then
      match rest with
      | [] => .error .noEscapedCharacter
      | c2 :: rest2 => shlexRun rest2 .normal (some (c2 :: cur.getD [])) acc
    else shlexRun rest .normal (some (c :: cur.getD [])) acc
  | c :: rest, .inSingle, cur, acc =>
    if c = '\'' then shlexRun rest .normal (some (cur.getD [])) acc
    else shlexRun rest .inSingle (some (c :: cur.getD [])) acc
  | c :: rest, .inDouble, cur, acc =>
    if c = '"' then shlexRun rest .normal (some (cur.getD [])) acc
    else if c = '\\' then
      match rest with
      | [] => .error .noEscapedCharacter
      | c2 :: rest2 =>
        if c2 = '"' || c2 = '\\' then
          shlexRun rest2 .inDouble (some (c2 :: cur.getD [])) acc
        else shlexRun rest2 .inDouble (some (c2 :: '\\' :: cur.getD [])) acc
    else shlexRun rest .inDouble (some (c :: cur.getD [])) acc

/-- `shlex.split(line)`. -/
def shlexSplit (s : String) : Except PyErr (List String) :=
  shlexRun s.toList .normal none []

/-! ## Module constants (lines 14-30 of the source) -/

/-- Index of the quoted request line among the tokens. -/
def REQUEST_INDEX : Nat := 5

/-- Index of the HTTP status code among the tokens. -/
def HTTP_CODE_INDEX : Nat := 6

/-- Index of the byte count among the tokens. -/
def BYTES_INDEX : Nat := 7

/-- Index of the referrer among the tokens. -/
def REFERRER_INDEX : Nat := 8

/-- A request is successful when its status code starts with this string. -/
def HTTP_SUCCESS_CODE : String := "2"

/-- Maximum number of popular urls to keep. -/
def POPULAR_URLS_LIMIT : Nat := 10

/-- A URL is on-site when its host part contains this string. -/
def ONSITE : String := "example.com"

/-! ## Field extraction (`parse_log_file` loop body, lines 88-93) -/

/-- Python sequence indexing `l[i]`, raising `IndexError` out of range. -/
def pyIndex (l : List α) (i : Nat) : Except PyErr α :=
  match l.get? i with
  | some x => .ok x
  | none => .error PyErr.indexError

/-- The fields one line contributes: the tuple
`request, http_code, bytes, referrer` of line 89 plus the derived
`username` of line 93. -/
structure LogRecord where
  request : String
  http_code : String
  bytes : Int
  referrer : String
  username : String
deriving DecidableEq

/-- Extraction from the token list of one line, in source evaluation
order: `record_tokens[REQUEST_INDEX].split()[1]`,
`record_tokens[HTTP_CODE_INDEX]`, `int(record_tokens[BYTES_INDEX])`,
`record_tokens[REFERRER_INDEX]`, then `request.split("/")[1]`. -/
def extractFromTokens (ts : List String) : Except PyErr LogRecord :=
  match pyIndex ts REQUEST_INDEX with
  | .error e => .error e
  | .ok treq =>
    match pyIndex (pySplitWs treq) 1 with
    | .error e => .error e
    | .ok request =>
      match pyIndex ts HTTP_CODE_INDEX with
      | .error e => .error e
      | .ok http_code =>
        match pyIndex ts BYTES_INDEX with
        | .error e => .error e
        | .ok tbytes =>
          match pyInt tbytes with
          | none => .error PyErr.valueErrorInt
          | some bytes =>
            match pyIndex ts REFERRER_INDEX with
            | .error e => .error e
            | .ok referrer =>
              match pyIndex (pySplitOn '/' request) 1 with
              | .error e => .error e
              | .ok username =>
                .ok ⟨request, http_code, bytes, referrer, username⟩

/-- Tokenize a line with `shlex.split` and extract its fields. -/
def extractRecord (line : String) : Except PyErr LogRecord :=
  match shlexSplit line with
  | .error e => .error e
  | .ok ts => extractFromTokens ts

/-! ## Per-file aggregation (`parse_log_file`, lines 74-108) -/

/-- The local accumulators of `parse_log_file`. -/
structure AggState where
  total_records : Int
  total_offsite_requests : Int
  customers_usage : Dict
  popular_urls : Dict
deriving DecidableEq

/-- The accumulators at the top of `parse_log_file`. -/
def aggInit : AggState := ⟨0, 0, [], []⟩

/-- One iteration of the `for record_line in f` loop after extraction:
add the bytes to the customer's usage, bump the url frequency when the
status starts with `HTTP_SUCCESS_CODE`, bump the offsite counter when the
referrer's netloc does not contain `ONSITE`, bump the record counter. -/
def applyRecord (st : AggState) (f : LogRecord) : AggState :=
  { total_records := st.total_records + 1
    total_offsite_requests :=
      if strContains (pyNetloc f.referrer) ONSITE = false then
        st.total_offsite_requests + 1
      else st.total_offsite_requests
    customers_usage :=
      dictSet st.customers_usage f.username
        (dictGetD st.customers_usage f.username 0 + f.bytes)
    popular_urls :=
      if pyStartswith f.http_code HTTP_SUCCESS_CODE then
        dictSet st.popular_urls f.request
          (dictGetD st.popular_urls f.request 0 + 1)
      else st.popular_urls }

/-- The file loop: process lines in order, propagating the first raised
exception (there is no handler in `parse_log_file`). -/
def parseLines : AggState → List String → Except PyErr AggState
  | st, [] => .ok st
  | st, line :: rest =>
    match extractRecord line with
    | .error e => .error e
    | .ok f => parseLines (applyRecord st f) rest

/-! ## `LogResults` and its shared mutable defaults -/

/-- The observable value of a `LogResults` instance.  `requests` models the
Python tuple: `LogResults()` stores `(0,0,0)` and `reduce_records` stores a
pair, so a list of integers keeps the length distinction.  Every reachable
record has at least two components. -/
structure LogResults where
  requests : List Int
  customer_usage : Dict
  popular_urls : Dict
deriving DecidableEq

/-- `rec.requests[i]`.  Python raises `IndexError` out of range; every
record the program builds has length 2 or 3, so indices 0 and 1 are always
in range and the default is never reached. -/
def tupGet (l : List Int) (i : Nat) : Int := l.getD i 0

/-- A dict-valued attribute of a `LogResults` object: either an alias of
the class-level mutable default dict of that attribute (`.shared`) or a
distinct dict object passed to `__init__` (`.own`). -/
inductive MapRef
  | shared
  | own (d : Dict)
deriving DecidableEq

/-- The program state carrying the two class-level default dicts of
`LogResults.__init__` (`customer_usage={}` and `popular_urls={}`).  Both
are created empty once, when the class statement runs, and are shared by
every no-argument construction. -/
structure PyState where
  default_customer_usage : Dict
  default_popular_urls : Dict
deriving DecidableEq

/-- The state right after the module loads: both default dicts empty. -/
def pyState0 : PyState := ⟨[], []⟩

/-- A `LogResults` object with dict attributes possibly aliasing the
shared defaults. -/
structure LogResultsRef where
  requests : List Int
  customer_usage : MapRef
  popular_urls : MapRef
deriving DecidableEq

/-- `LogResults()`: `requests` is the empty tuple, replaced by `(0,0,0)`;
both dict attributes alias the class-level defaults. -/
def logResultsNoArgs : LogResultsRef := ⟨[0, 0, 0], .shared, .shared⟩

/-- Read a dict attribute, resolving a `.shared` alias against the current
content `dflt` of that attribute's default dict. -/
def derefMap (dflt : Dict) : MapRef → Dict
  | .shared => dflt
  | .own d => d

/-- One iteration of a `reduce_records` key loop:
`record.X[k] = rec1.X.get(k, 0) + rec2.X.get(k, 0)` where `record.X` is the
shared default dict `d` (so reads through a `.shared` argument see the
writes already performed on earlier keys). -/
def mergeKeyStep (m1 m2 : MapRef) (d : Dict) (k : String) : Dict :=
  dictSet d k (dictGetD (derefMap d m1) k 0 + dictGetD (derefMap d m2) k 0)

/-- `reduce_records(rec1, rec2)` (lines 55-71), with the shared-default
aliasing made explicit.  `record = LogResults()` aliases both default
dicts, so each key loop accumulates into the corresponding default dict of
the state; the key set of each loop is computed before its loop runs, and
Python set iteration order is unspecified, which only affects insertion
order, invisible to dict equality. -/
def reduce_records (rec1 rec2 : LogResultsRef) (s : PyState) :
    LogResultsRef × PyState :=
  let record := logResultsNoArgs
  let cuKeys :=
    (dictKeys (derefMap s.default_customer_usage rec1.customer_usage) ++
      dictKeys (derefMap s.default_customer_usage rec2.customer_usage)).dedup
  let cuD := cuKeys.foldl
    (mergeKeyStep rec1.customer_usage rec2.customer_usage)
    s.default_customer_usage
  let requests :=
    [tupGet rec1.requests 0 + tupGet rec2.requests 0,
     tupGet rec1.requests 1 + tupGet rec2.requests 1]
  let puKeys :=
    (dictKeys (derefMap s.default_popular_urls rec1.popular_urls) ++
      dictKeys (derefMap s.default_popular_urls rec2.popular_urls)).dedup
  let puD := puKeys.foldl
    (mergeKeyStep rec1.popular_urls rec2.popular_urls)
    s.default_popular_urls
  ({ record with requests := requests }, ⟨cuD, puD⟩)

/-- View a plain value record as an object whose dict attributes are fresh
(as the records returned by `parse_log_file` are). -/
def toRef (r : LogResults) : LogResultsRef :=
  ⟨r.requests, .own r.customer_usage, .own r.popular_urls⟩

/-- The value a single `reduce_records` call computes on records with
freshly owned dicts, run at the pristine program state `pyState0` (both
class-level default dicts still empty), with the result's `.shared`
attributes resolved against the resulting state.  This is the value-level
merge of the source; `reduce_records_mutates_identity` below shows why the
state must be pristine: later calls see the polluted defaults. -/
def reduce_recordsPure (r1 r2 : LogResults) : LogResults :=
  let (rec, s) := reduce_records (toRef r1) (toRef r2) pyState0
  ⟨rec.requests,
   derefMap s.default_customer_usage rec.customer_usage,
   derefMap s.default_popular_urls rec.popular_urls⟩

/-- Key-wise sum of two dicts over the union of their key sets, absent
keys read as zero (built like the `reduce_records` key loops from an empty
target dict). -/
def mergeDicts (m1 m2 : Dict) : Dict :=
  ((dictKeys m1 ++ dictKeys m2).dedup).foldl
    (fun d k => dictSet d k (dictGetD m1 k 0 + dictGetD m2 k 0)) []

/-- `parse_log_file` on the list of lines of one file: fold the loop and
wrap the accumulators as
`LogResults((total_offsite_requests, total_records), customers_usage,
popular_urls)` (line 108). -/
def parse_log_file (lines : List String) : Except PyErr LogResults :=
  (parseLines aggInit lines).map fun st =>
    ⟨[st.total_offsite_requests, st.total_records],
     st.customers_usage, st.popular_urls⟩

/-- `lineBytes line` is the byte count a successfully parsed line
contributes (zero for a failing line; used only under the hypothesis that
every line parses). -/
def lineBytes (line : String) : Int :=
  match extractRecord line with
  | .ok f => f.bytes
  | .error _ => 0

/-- Total byte count of a list of lines. -/
def sumBytes (lines : List String) : Int := (lines.map lineBytes).sum

/-! ## Top-K selection (line 146) -/

/-- Comparison used by `sorted(..., key=lambda x: x[1], reverse=True)`:
descending by count. -/
def countGE (x y : String × Int) : Prop := y.2 ≤ x.2

instance : DecidableRel countGE :=
  fun x y => inferInstanceAs (Decidable (y.2 ≤ x.2))

instance : IsTotal (String × Int) countGE := ⟨fun a b => le_total b.2 a.2⟩

instance : IsTrans (String × Int) countGE :=
  ⟨fun _ _ _ hab hbc => le_trans hbc hab⟩

/-- `sorted(popular_urls.items(), key=lambda x: x[1], reverse=True)`.
Python's timsort is stable, but the item order of the underlying dict is
itself unspecified, so order among equal counts carries no contract; an
insertion sort by the same key realizes the sort. -/
def popularUrlsSorted (freq : List (String × Int)) : List (String × Int) :=
  List.insertionSort countGE freq

/-- The top-`limit` slice `sorted(...)[:limit]`; the source applies it with
`limit = POPULAR_URLS_LIMIT`. -/
def topPopularUrls (limit : Nat) (freq : List (String × Int)) :
    List (String × Int) :=
  (popularUrlsSorted freq).take limit

/-! ## Concrete inputs used by counterexamples and witnesses -/

/-- A well-formed combined-log line: customer `alice`, status 200,
1024 bytes, off-site referrer. -/
def goodLine : String :=
  "1.2.3.4 - frank [10/Oct/2000:13:55:36 -0700] \"GET /alice/home.html HTTP/1.0\" 200 1024 \"http://other.org/start\" \"Mozilla/4.08\""

/-- The record `goodLine` yields. -/
def goodRecord : LogRecord :=
  ⟨"/alice/home.html", "200", 1024, "http://other.org/start", "alice"⟩

/-- The `LogResults` value `parse_log_file` returns for `[goodLine]`. -/
def goodParsedR : LogResults :=
  ⟨[1, 1], [("alice", 1024)], [("/alice/home.html", 1)]⟩

/-- A line with an unterminated quote: `shlex` raises. -/
def badQuoteLine : String := "1.2.3.4 - frank \"unterminated"

/-- `goodLine` with byte-count token `-5`: `int()` accepts the sign. -/
def negLine : String :=
  "1.2.3.4 - frank [10/Oct/2000:13:55:36 -0700] \"GET /alice/home.html HTTP/1.0\" 200 -5 \"http://other.org/start\" \"Mozilla/4.08\""

/-- The `LogResults` value `parse_log_file` returns for `[negLine]`. -/
def negParsedR : LogResults :=
  ⟨[1, 1], [("alice", -5)], [("/alice/home.html", 1)]⟩

/-- A request for the bare root path `/`. -/
def rootLine : String :=
  "1.2.3.4 - frank [10/Oct/2000:13:55:36 -0700] \"GET / HTTP/1.0\" 200 512 \"http://other.org/x\" \"Mozilla/4.08\""

/-- The record `rootLine` yields: the customer id is the empty string. -/
def rootRecord : LogRecord := ⟨"/", "200", 512, "http://other.org/x", ""⟩

/-- A concrete partial result used to exhibit the identity mutation. -/
def rBob : LogResults := ⟨[1, 2], [("bob", 150)], [("/bob/index.html", 1)]⟩

/-- Record equality up to Python `==` on the fields: tuple equality on
`requests`, dict equality on the two mappings. -/
def logEquiv (r1 r2 : LogResults) : Prop :=
  r1.requests = r2.requests ∧
  dictEquiv r1.customer_usage r2.customer_usage ∧
  dictEquiv r1.popular_urls r2.popular_urls

/-- A token sequence whose byte-count token `12x` is not an integer. -/
def tsBadBytes : List String :=
  ["h1", "id1", "u1", "d1", "d2", "GET /alice/x HTTP/1.0", "200", "12x",
   "http://e/p"]

/-- A token sequence whose request target `nopath` contains no slash. -/
def tsNoSlash : List String :=
  ["h1", "id1", "u1", "d1", "d2", "GET nopath HTTP/1.0", "200", "77",
   "http://e/p"]

/-! ## Dictionary lemmas -/

theorem dictGet?_set (d : Dict) (k : String) (v : Int) (q : String) :
    dictGet? (dictSet d k v) q = if k = q then some v else dictGet? d q := by
  induction d with
  | nil => simp [dictSet, dictGet?]
  | cons hd tl ih =>
    obtain ⟨k0, v0⟩ := hd
    by_cases h0 : k0 = k
    · subst h0
      by_cases hq : k0 = q <;> simp [dictSet, dictGet?, hq]
    · by_cases hq : k0 = q
      · subst hq
        have : ¬(k = k0) := fun h => h0 h.symm
        simp [dictSet, dictGet?, h0, this]
      · simp [dictSet, dictGet?, h0, hq, ih]

theorem mem_dictKeys (d : Dict) (k : String) :
    k ∈ dictKeys d ↔ (dictGet? d k).isSome := by
  induction d with
  | nil => simp [dictKeys, dictGet?]
  | cons hd tl ih =>
    obtain ⟨k0, v0⟩ := hd
    show k ∈ k0 :: dictKeys tl ↔ _
    rw [List.mem_cons]
    by_cases h0 : k0 = k
    · subst h0
      simp [dictGet?]
    · have hne : ¬(k = k0) := fun h => h0 h.symm
      simp [dictGet?, h0, hne, ih]

theorem dictGet?_foldl_set (f : String → Int) (L : List String) (d0 : Dict)
    (k : String) :
    dictGet? (L.foldl (fun d k2 => dictSet d k2 (f k2)) d0) k =
      if k ∈ L then some (f k) else dictGet? d0 k := by
  induction L generalizing d0 with
  | nil => simp
  | cons x L ih =>
    simp only [List.foldl_cons, ih, dictGet?_set, List.mem_cons]
    by_cases hx : k ∈ L
    · simp [hx]
    · by_cases hk : x = k
      · simp [hk, hx]
      · have : ¬(k = x) := fun h => hk h.symm
        simp [hx, hk, this]

theorem mergeDicts_get? (m1 m2 : Dict) (k : String) :
    dictGet? (mergeDicts m1 m2) k =
      if (dictGet? m1 k).isSome ∨ (dictGet? m2 k).isSome then
        some (dictGetD m1 k 0 + dictGetD m2 k 0)
      else none := by
  unfold mergeDicts
  rw [dictGet?_foldl_set (fun k2 => dictGetD m1 k2 0 + dictGetD m2 k2 0)]
  simp [List.mem_dedup, mem_dictKeys, dictGet?]

theorem dictGetD_eq_zero_of_none (m : Dict) (k : String)
    (h : dictGet? m k = none) : dictGetD m k 0 = 0 := by
  simp [dictGetD, h]

theorem mergeDicts_getD (m1 m2 : Dict) (k : String) :
    dictGetD (mergeDicts m1 m2) k 0 = dictGetD m1 k 0 + dictGetD m2 k 0 := by
  rw [dictGetD, mergeDicts_get?]
  cases h1 : dictGet? m1 k with
  | some v1 => simp [dictGetD, h1]
  | none =>
    cases h2 : dictGet? m2 k with
    | some v2 => simp [dictGetD, h1, h2]
    | none => simp [dictGetD, h1, h2]

theorem mergeDicts_isSome (m1 m2 : Dict) (k : String) :
    (dictGet? (mergeDicts m1 m2) k).isSome =
      ((dictGet? m1 k).isSome || (dictGet? m2 k).isSome) := by
  rw [mergeDicts_get?]
  cases h1 : dictGet? m1 k with
  | some v1 => simp [h1]
  | none =>
    cases h2 : dictGet? m2 k with
    | some v2 => simp [h1, h2]
    | none => simp [h1, h2]

theorem dictSum_set_add (d : Dict) (k : String) (b : Int) :
    dictSum (dictSet d k (dictGetD d k 0 + b)) = dictSum d + b := by
  induction d with
  | nil => simp [dictSum, dictSet, dictGetD, dictGet?]
  | cons hd tl ih =>
    obtain ⟨k0, v0⟩ := hd
    by_cases h0 : k0 = k
    · subst h0
      simp [dictSum, dictSet, dictGetD, dictGet?]
      ring
    · have hg : dictGetD ((k0, v0) :: tl) k 0 = dictGetD tl k 0 := by
        simp [dictGetD, dictGet?, h0]
      rw [hg]
      simp only [dictSet, if_neg h0]
      have := ih
      simp only [dictSum, List.map_cons, List.sum_cons] at this ⊢
      rw [this]
      ring

/-- The value-level merge unfolds to `mergeDicts` on both mappings and a
component-wise sum on the counters. -/
theorem reduce_recordsPure_def (r1 r2 : LogResults) :
    reduce_recordsPure r1 r2 =
      ⟨[tupGet r1.requests 0 + tupGet r2.requests 0,
        tupGet r1.requests 1 + tupGet r2.requests 1],
       mergeDicts r1.customer_usage r2.customer_usage,
       mergeDicts r1.popular_urls r2.popular_urls⟩ := rfl

/-! ## Extraction and file-loop lemmas -/

theorem pyIndex_ok {α : Type} {l : List α} {i : Nat} {x : α}
    (h : l[i]? = some x) : pyIndex l i = .ok x := by
  simp [pyIndex, List.get?_eq_getElem?, h]

theorem pyIndex_err {α : Type} {l : List α} {i : Nat}
    (h : l[i]? = none) : pyIndex l i = .error PyErr.indexError := by
  simp [pyIndex, List.get?_eq_getElem?, h]

theorem pySplitOn_aux_length (sep : Char) (cs : List Char) :
    ∀ acc, (splitOnCharAux sep cs acc).length = cs.count sep + 1 := by
  induction cs with
  | nil => intro acc; simp [splitOnCharAux]
  | cons c rest ih =>
    intro acc
    by_cases hc : c = sep
    · subst hc
      simp [splitOnCharAux, ih, List.count_cons]
    · have hb : ¬(c == sep) = true := by simpa using hc
      simp [splitOnCharAux, hc, ih, List.count_cons, hb]

theorem pySplitOn_length (sep : Char) (s : String) :
    (pySplitOn sep s).length = s.toList.count sep + 1 :=
  pySplitOn_aux_length sep s.toList []

theorem pySplitOn_two_le_iff (sep : Char) (s : String) :
    2 ≤ (pySplitOn sep s).length ↔ sep ∈ s.toList := by
  rw [pySplitOn_length]
  constructor
  · intro h
    have : 0 < s.toList.count sep := by omega
    exact List.count_pos_iff.mp this
  · intro h
    have : 0 < s.toList.count sep := List.count_pos_iff.mpr h
    omega

theorem parseLines_append_error (line : String) (e : PyErr)
    (hline : extractRecord line = .error e) :
    ∀ (pre : List String), (∀ l ∈ pre, (extractRecord l).isOk = true) →
      ∀ (post : List String) (st : AggState),
        parseLines st (pre ++ line :: post) = .error e := by
  intro pre
  induction pre with
  | nil =>
    intro _ post st
    simp [parseLines, hline]
  | cons p pre2 ih =>
    intro hpre post st
    have hp : (extractRecord p).isOk = true := hpre p (by simp)
    cases hep : extractRecord p with
    | error e2 => rw [hep] at hp; simp [Except.isOk, Except.toBool] at hp
    | ok f =>
      have hrest : ∀ l ∈ pre2, (extractRecord l).isOk = true := by
        intro l hl; exact hpre l (by simp [hl])
      simp only [List.cons_append, parseLines, hep]
      exact ih hrest post (applyRecord st f)

theorem parseLines_exists_error (lines : List String)
    (h : ∃ l ∈ lines, (extractRecord l).isOk = false) :
    ∀ st : AggState, (parseLines st lines).isOk = false := by
  induction lines with
  | nil => simp at h
  | cons l rest ih =>
    intro st
    cases hel : extractRecord l with
    | error e => simp [parseLines, hel, Except.isOk, Except.toBool]
    | ok f =>
      simp only [parseLines, hel]
      obtain ⟨l2, hl2, hbad⟩ := h
      rcases List.mem_cons.mp hl2 with rfl | hmem
      · rw [hel] at hbad; simp [Except.isOk, Except.toBool] at hbad
      · exact ih ⟨l2, hmem, hbad⟩ (applyRecord st f)

theorem isOk_map {α β : Type} (g : α → β) (x : Except PyErr α) :
    (x.map g).isOk = x.isOk := by
  cases x <;> rfl

/-- The totals and the customer-usage sum evolve additively through the
file loop. -/
theorem parseLines_conservation (lines : List String) :
    ∀ (st st2 : AggState), parseLines st lines = .ok st2 →
      st2.total_records = st.total_records + lines.length ∧
      dictSum st2.customers_usage =
        dictSum st.customers_usage + sumBytes lines := by
  induction lines with
  | nil =>
    intro st st2 h
    simp only [parseLines] at h
    cases h
    simp [sumBytes]
  | cons l rest ih =>
    intro st st2 h
    cases hel : extractRecord l with
    | error e => rw [parseLines, hel] at h; cases h
    | ok f =>
      rw [parseLines, hel] at h
      obtain ⟨h1, h2⟩ := ih (applyRecord st f) st2 h
      have hb : lineBytes l = f.bytes := by simp [lineBytes, hel]
      constructor
      · rw [h1]
        simp only [applyRecord, List.length_cons]
        push_cast
        ring
      · rw [h2]
        simp only [applyRecord]
        rw [dictSum_set_add]
        simp only [sumBytes, List.map_cons, List.sum_cons, hb]
        ring

/-- The offsite counter never outruns the record counter through the file
loop. -/
theorem parseLines_counter_le (lines : List String) :
    ∀ (st st2 : AggState), parseLines st lines = .ok st2 →
      st.total_offsite_requests ≤ st.total_records →
      st2.total_offsite_requests ≤ st2.total_records := by
  induction lines with
  | nil =>
    intro st st2 h hle
    simp only [parseLines] at h
    cases h
    exact hle
  | cons l rest ih =>
    intro st st2 h hle
    cases hel : extractRecord l with
    | error e => rw [parseLines, hel] at h; cases h
    | ok f =>
      rw [parseLines, hel] at h
      refine ih (applyRecord st f) st2 h ?_
      simp only [applyRecord]
      by_cases hc : strContains (pyNetloc f.referrer) ONSITE = false <;>
        simp [hc] <;> omega

/-! ## Claim theorems -/

theorem dictEquiv_mergeDicts_comm (m1 m2 : Dict) :
    dictEquiv (mergeDicts m1 m2) (mergeDicts m2 m1) := by
  intro k
  rw [mergeDicts_get?, mergeDicts_get?]
  by_cases h1 : (dictGet? m1 k).isSome <;>
    by_cases h2 : (dictGet? m2 k).isSome <;>
      simp [h1, h2, Int.add_comm]

theorem dictEquiv_mergeDicts_assoc (m1 m2 m3 : Dict) :
    dictEquiv (mergeDicts (mergeDicts m1 m2) m3)
      (mergeDicts m1 (mergeDicts m2 m3)) := by
  intro k
  rw [mergeDicts_get? (mergeDicts m1 m2) m3 k,
    mergeDicts_get? m1 (mergeDicts m2 m3) k, mergeDicts_isSome,
    mergeDicts_isSome, mergeDicts_getD, mergeDicts_getD]
  by_cases h1 : (dictGet? m1 k).isSome <;>
    by_cases h2 : (dictGet? m2 k).isSome <;>
      by_cases h3 : (dictGet? m3 k).isSome <;>
        simp [h1, h2, h3, Int.add_assoc]

/-- C1: the claim asserts `reduce_records(r, LogResults())` returns a
result equal to `r` while leaving the identity element unchanged.  The
code violates the second half: `LogResults.__init__` uses mutable default
arguments, so the identity's `customer_usage` attribute is the shared
class-level default dict, and `reduce_records` writes the merged entries
into exactly that dict.  Merging `rBob` with the identity at the pristine
state turns the dict the identity aliases from `{}` into
`{"bob": 150}`: the identity element is mutated by the operation.  (The
docstring of `reduce_records` promises a new record, so this is a slip in
the code, not intended behaviour.) -/
theorem reduce_records_mutates_identity :
    logResultsNoArgs.customer_usage = MapRef.shared ∧
    pyState0.default_customer_usage = [] ∧
    (reduce_records (toRef rBob) logResultsNoArgs
        pyState0).2.default_customer_usage = [("bob", 150)] ∧
    derefMap (reduce_records (toRef rBob) logResultsNoArgs
        pyState0).2.default_customer_usage logResultsNoArgs.customer_usage ≠
      derefMap pyState0.default_customer_usage
        logResultsNoArgs.customer_usage := by
  refine ⟨rfl, rfl, rfl, by decide⟩

/-- C2: the value-level merge is commutative and associative up to Python
equality, the counters sum component-wise, and both mappings combine as
key-wise sums over the union of keys with absent keys read as zero. -/
theorem reduce_records_monoid (a b c : LogResults) :
    logEquiv (reduce_recordsPure a b) (reduce_recordsPure b a) ∧
    logEquiv (reduce_recordsPure (reduce_recordsPure a b) c)
      (reduce_recordsPure a (reduce_recordsPure b c)) ∧
    (∀ k, dictGetD (reduce_recordsPure a b).customer_usage k 0 =
      dictGetD a.customer_usage k 0 + dictGetD b.customer_usage k 0) ∧
    (∀ k, dictGetD (reduce_recordsPure a b).popular_urls k 0 =
      dictGetD a.popular_urls k 0 + dictGetD b.popular_urls k 0) ∧
    tupGet (reduce_recordsPure a b).requests 0 =
      tupGet a.requests 0 + tupGet b.requests 0 ∧
    tupGet (reduce_recordsPure a b).requests 1 =
      tupGet a.requests 1 + tupGet b.requests 1 := by
  refine ⟨⟨?_, ?_, ?_⟩, ⟨?_, ?_, ?_⟩, ?_, ?_, rfl, rfl⟩
  · simp [reduce_recordsPure_def, Int.add_comm]
  · simp only [reduce_recordsPure_def]
    exact dictEquiv_mergeDicts_comm _ _
  · simp only [reduce_recordsPure_def]
    exact dictEquiv_mergeDicts_comm _ _
  · simp [reduce_recordsPure_def, tupGet, Int.add_assoc]
  · simp only [reduce_recordsPure_def]
    exact dictEquiv_mergeDicts_assoc _ _ _
  · simp only [reduce_recordsPure_def]
    exact dictEquiv_mergeDicts_assoc _ _ _
  · simp only [reduce_recordsPure_def]
    exact mergeDicts_getD _ _
  · simp only [reduce_recordsPure_def]
    exact mergeDicts_getD _ _

/-- C3: `parse_log_file` has no exception handler, so the first line whose
tokenization, field indexing or byte-count parsing raises makes the whole
call raise that error and return no result; and a file containing any
failing line yields no result at all. -/
theorem parse_log_file_fail_fast :
    (∀ (pre post : List String) (line : String) (e : PyErr),
      (∀ l ∈ pre, (extractRecord l).isOk = true) →
      extractRecord line = .error e →
      parse_log_file (pre ++ line :: post) = .error e) ∧
    (∀ lines : List String,
      (∃ l ∈ lines, (extractRecord l).isOk = false) →
      (parse_log_file lines).isOk = false) := by
  constructor
  · intro pre post line e hpre hline
    unfold parse_log_file
    rw [parseLines_append_error line e hline pre hpre post aggInit]
    rfl
  · intro lines h
    unfold parse_log_file
    rw [isOk_map]
    exact parseLines_exists_error lines h aggInit

/-- Witness for C3 at a concrete three-line file whose second line has an
unterminated quote: the whole file errors with that line's exception. -/
theorem parse_log_file_fail_fast_witness :
    parse_log_file [goodLine, badQuoteLine, goodLine] =
      .error PyErr.noClosingQuotation := by
  have hpre : ∀ l ∈ [goodLine], (extractRecord l).isOk = true := by
    intro l hl
    simp only [List.mem_singleton] at hl
    subst hl
    rfl
  exact parse_log_file_fail_fast.1 [goodLine] [goodLine] badQuoteLine
    PyErr.noClosingQuotation hpre rfl

/-- C4 counterexample: the byte-count token `-5` is not a non-negative
integer, yet `int()` accepts the sign, no error is signalled, and the
record contributes the negative amount `-5` to `customerUsage["alice"]` —
contradicting both halves of the claim. -/
theorem byte_count_negative_counterexample :
    parse_log_file [negLine] = .ok negParsedR ∧
    dictGetD negParsedR.customer_usage "alice" 0 = -5 ∧
    ((-5 : Int) < 0) := ⟨rfl, by decide, by decide⟩

/-- C4 (amended): the byte count is obtained by parsing token 7 with
Python `int`, which accepts an optional sign, and the `ValueError` is
signalled exactly when the token is not parseable as an optionally signed
decimal integer; a successfully parsed record's `bytes` field is exactly
the parsed value (so a negative token yields a negative byte count). -/
theorem byte_count_parsing (ts : List String) (treq req code tbytes : String)
    (h5 : ts[REQUEST_INDEX]? = some treq)
    (hw : (pySplitWs treq)[1]? = some req)
    (h6 : ts[HTTP_CODE_INDEX]? = some code)
    (h7 : ts[BYTES_INDEX]? = some tbytes)
    (h8 : (ts[REFERRER_INDEX]?).isSome = true) :
    (∀ f, extractFromTokens ts = .ok f → pyInt tbytes = some f.bytes) ∧
    (extractFromTokens ts = .error PyErr.valueErrorInt ↔
      pyInt tbytes = none) := by
  obtain ⟨ref, href⟩ := Option.isSome_iff_exists.mp h8
  simp only [extractFromTokens, pyIndex_ok h5, pyIndex_ok hw, pyIndex_ok h6,
    pyIndex_ok h7, pyIndex_ok href]
  cases hpi : pyInt tbytes with
  | none => simp
  | some b =>
    cases hu : (pySplitOn '/' req)[1]? with
    | none => simp [pyIndex_err hu]
    | some u =>
      simp only [pyIndex_ok hu]
      constructor
      · intro f hf
        cases hf
        rfl
      · simp

/-- Witness for C4 (amended) at a concrete token sequence whose byte-count
token is `12x`. -/
theorem byte_count_parsing_witness :
    extractFromTokens tsBadBytes = .error PyErr.valueErrorInt ↔
      pyInt "12x" = none :=
  (byte_count_parsing tsBadBytes "GET /alice/x HTTP/1.0" "/alice/x" "200"
    "12x" rfl rfl rfl rfl rfl).2

/-- C5 counterexample: the request target `/` has a leading slash followed
by no segment, yet extraction does not fail — it succeeds with the empty
string as customer id (Python `"/".split("/")[1] == ""`). -/
theorem customer_id_root_counterexample :
    extractRecord rootLine = .ok rootRecord ∧ rootRecord.request = "/" ∧
    rootRecord.username = "" := ⟨rfl, rfl, rfl⟩

/-- C5 (amended): the customer id of a successfully parsed record is the
element at index 1 of the request target split on `/`; extraction fails
with an `IndexError` exactly when the target contains no `/` character at
all (so the bare target `/` yields the empty-string customer id instead of
failing, and a target without any slash fails even though it also has no
leading slash).  The path `/alice/file.txt` yields `alice`. -/
theorem customer_id_extraction (ts : List String)
    (treq req code tbytes ref : String) (b : Int)
    (h5 : ts[REQUEST_INDEX]? = some treq)
    (hw : (pySplitWs treq)[1]? = some req)
    (h6 : ts[HTTP_CODE_INDEX]? = some code)
    (h7 : ts[BYTES_INDEX]? = some tbytes)
    (hb : pyInt tbytes = some b)
    (h8 : ts[REFERRER_INDEX]? = some ref) :
    (∀ f, extractFromTokens ts = .ok f →
      f.username = (pySplitOn '/' req).getD 1 "") ∧
    (extractFromTokens ts = .error PyErr.indexError ↔
      ¬('/' ∈ req.toList)) ∧
    (pySplitOn '/' "/alice/file.txt").getD 1 "" = "alice" := by
  refine ⟨?_, ?_, by decide⟩ <;>
  · simp only [extractFromTokens, pyIndex_ok h5, pyIndex_ok hw, pyIndex_ok h6,
      pyIndex_ok h7, hb, pyIndex_ok h8]
    by_cases hm : '/' ∈ req.toList
    · have hlt : 1 < (pySplitOn '/' req).length :=
        (pySplitOn_two_le_iff '/' req).mpr hm
      have hu : (pySplitOn '/' req)[1]? = some ((pySplitOn '/' req)[1]) :=
        List.getElem?_eq_getElem hlt
      simp only [pyIndex_ok hu]
      first
      | · intro f hf
          cases hf
          simp [List.getD, List.get?_eq_getElem?, hu]
      | · simp only [reduceCtorEq, false_iff, not_not]
          exact hm
    · have hlen : (pySplitOn '/' req).length ≤ 1 := by
        by_contra hc
        exact hm ((pySplitOn_two_le_iff '/' req).mp (by omega))
      have hu : (pySplitOn '/' req)[1]? = none := by
        rw [List.getElem?_eq_none_iff]
        omega
      simp only [pyIndex_err hu]
      first
      | · intro f hf
          cases hf
      | · simp only [true_iff, iff_true]
          exact hm

/-- Witness for C5 (amended) at a concrete token sequence whose request
target `nopath` contains no slash: extraction raises `IndexError`. -/
theorem customer_id_extraction_witness :
    extractFromTokens tsNoSlash = .error PyErr.indexError ↔
      ¬('/' ∈ ("nopath" : String).toList) :=
  (customer_id_extraction tsNoSlash "GET nopath HTTP/1.0" "nopath" "200"
    "77" "http://e/p" 77 rfl rfl rfl rfl rfl rfl).2.1

/-- C6: the offsite counter is incremented exactly when the netloc of the
referrer URL does not contain the marker substring `ONSITE`
(`"example.com"`); this is substring containment, not an exact host
match.  Referrer `http://www.example.com/page` has netloc
`www.example.com`, which contains the marker (on-site); referrer
`http://other.org/page` has netloc `other.org`, which does not
(off-site). -/
theorem onsite_classification :
    (∀ (st : AggState) (f : LogRecord),
      (applyRecord st f).total_offsite_requests =
        (if strContains (pyNetloc f.referrer) ONSITE = false then
          st.total_offsite_requests + 1
        else st.total_offsite_requests)) ∧
    (∀ (st : AggState) (f : LogRecord),
      (applyRecord st f).total_offsite_requests =
          st.total_offsite_requests + 1 ↔
        strContains (pyNetloc f.referrer) ONSITE = false) ∧
    pyNetloc "http://www.example.com/page" = "www.example.com" ∧
    strContains "www.example.com" ONSITE = true ∧
    pyNetloc "http://other.org/page" = "other.org" ∧
    strContains "other.org" ONSITE = false ∧
    strContains "badexample.communities.net" ONSITE = true := by
  refine ⟨fun st f => rfl, ?_, rfl, by decide, rfl, by decide, by decide⟩
  intro st f
  by_cases hc : strContains (pyNetloc f.referrer) ONSITE = false
  · simp [applyRecord, hc]
  · simp only [applyRecord, if_neg hc]
    constructor
    · intro h
      omega
    · intro h
      exact absurd h hc

/-- C7: the url-frequency map is updated exactly when the status token
starts with `HTTP_SUCCESS_CODE` (`"2"`), i.e. when its first character is
`2`; status `404` never contributes, status `200` does. -/
theorem success_filtering :
    (∀ (st : AggState) (f : LogRecord),
      (applyRecord st f).popular_urls =
        (if pyStartswith f.http_code HTTP_SUCCESS_CODE then
          dictSet st.popular_urls f.request
            (dictGetD st.popular_urls f.request 0 + 1)
        else st.popular_urls)) ∧
    (∀ s : String,
      pyStartswith s HTTP_SUCCESS_CODE = true ↔
        s.toList.head? = some ('2')) ∧
    pyStartswith "404" HTTP_SUCCESS_CODE = false ∧
    pyStartswith "200" HTTP_SUCCESS_CODE = true := by
  refine ⟨fun st f => rfl, ?_, by decide, by decide⟩
  intro s
  have hd : pyStartswith s HTTP_SUCCESS_CODE =
      List.isPrefixOf ['2'] s.toList := rfl
  rw [hd]
  cases h : s.toList with
  | nil =>
    rw [List.isPrefixOf_iff_prefix]
    simp
  | cons c t =>
    rw [List.isPrefixOf_iff_prefix]
    simp [List.cons_prefix_cons, eq_comm]

/-- C8: every result of `parse_log_file` satisfies
`offsiteCount <= totalCount` (components 0 and 1 of `requests`), and the
value-level merge preserves the inequality. -/
theorem counter_invariant :
    (∀ (lines : List String) (r : LogResults),
      parse_log_file lines = .ok r →
      tupGet r.requests 0 <= tupGet r.requests 1) ∧
    (∀ a b : LogResults,
      tupGet a.requests 0 <= tupGet a.requests 1 →
      tupGet b.requests 0 <= tupGet b.requests 1 →
      tupGet (reduce_recordsPure a b).requests 0 <=
        tupGet (reduce_recordsPure a b).requests 1) := by
  constructor
  · intro lines r h
    unfold parse_log_file at h
    cases hp : parseLines aggInit lines with
    | error e =>
      rw [hp] at h
      simp [Except.map] at h
    | ok st =>
      rw [hp] at h
      simp only [Except.map, Except.ok.injEq] at h
      have hle : st.total_offsite_requests <= st.total_records :=
        parseLines_counter_le lines aggInit st hp (by norm_num [aggInit])
      subst h
      simpa [tupGet] using hle
  · intro a b ha hb
    rw [reduce_recordsPure_def]
    show tupGet a.requests 0 + tupGet b.requests 0 <=
      tupGet a.requests 1 + tupGet b.requests 1
    exact add_le_add ha hb

/-- Witness for C8 at the one-line file `[goodLine]` and at two concrete
partial results. -/
theorem counter_invariant_witness :
    (tupGet goodParsedR.requests 0 <= tupGet goodParsedR.requests 1) ∧
    (tupGet (reduce_recordsPure rBob goodParsedR).requests 0 <=
      tupGet (reduce_recordsPure rBob goodParsedR).requests 1) :=
  ⟨counter_invariant.1 [goodLine] goodParsedR rfl,
   counter_invariant.2 rBob goodParsedR (by decide) (by decide)⟩

/-- C9: the top-K selector sorts the (url, count) pairs by count
descending (the source performs no tie-break beyond the underlying,
unspecified dict order), truncates to the configured limit — the source's
limit constant is 10 — and on `{/a: 5, /b: 9, /c: 1}` with limit 2 returns
`[(/b, 9), (/a, 5)]`. -/
theorem top_k_selection :
    POPULAR_URLS_LIMIT = 10 ∧
    (∀ (limit : Nat) (freq : List (String × Int)),
      List.Sorted countGE (topPopularUrls limit freq) ∧
      (popularUrlsSorted freq).Perm freq ∧
      topPopularUrls limit freq = (popularUrlsSorted freq).take limit ∧
      (topPopularUrls limit freq).length = min limit freq.length) ∧
    topPopularUrls 2 [("/a", 5), ("/b", 9), ("/c", 1)] =
      [("/b", 9), ("/a", 5)] := by
  refine ⟨rfl, ?_, by decide⟩
  intro limit freq
  have hs : List.Sorted countGE (popularUrlsSorted freq) :=
    List.sorted_insertionSort countGE freq
  refine ⟨?_, List.perm_insertionSort countGE freq, rfl, ?_⟩
  · exact List.Pairwise.sublist (List.take_sublist limit _) hs
  · simp [topPopularUrls, popularUrlsSorted, List.length_insertionSort]

/-- C10: when every line of a file parses, the total record count equals
the number of lines, and the customer-usage values sum to the total of the
parsed byte counts (each line credits its bytes to exactly one
customer). -/
theorem conservation_invariant (lines : List String) (r : LogResults)
    (h : parse_log_file lines = .ok r) :
    tupGet r.requests 1 = (lines.length : Int) ∧
    dictSum r.customer_usage = sumBytes lines := by
  unfold parse_log_file at h
  cases hp : parseLines aggInit lines with
  | error e =>
    rw [hp] at h
    simp [Except.map] at h
  | ok st =>
    rw [hp] at h
    simp only [Except.map, Except.ok.injEq] at h
    obtain ⟨h1, h2⟩ := parseLines_conservation lines aggInit st hp
    subst h
    constructor
    · simpa [tupGet, aggInit] using h1
    · simpa [aggInit, dictSum] using h2

/-- Witness for C10 at the one-line file `[goodLine]`. -/
theorem conservation_invariant_witness :
    tupGet goodParsedR.requests 1 =
      (([goodLine] : List String).length : Int) ∧
    dictSum goodParsedR.customer_usage = sumBytes [goodLine] :=
  conservation_invariant [goodLine] goodParsedR rfl

/-- Merging with an empty dict changes nothing, up to dict equality. -/
theorem dictEquiv_mergeDicts_nil (m : Dict) : dictEquiv (mergeDicts m []) m := by
  intro k
  rw [mergeDicts_get?]
  cases h : dictGet? m k with
  | some v => simp [dictGetD, dictGet?, h]
  | none => simp [dictGet?, h]

/-- The value half of the identity law does hold on a first call from the
pristine state: merging a pair-counter record with the value of
`LogResults()` gives back an equal record.  Only the in-place mutation of
the shared defaults (see `reduce_records_mutates_identity`) breaks the
identity law as a statement about the program. -/
theorem reduce_recordsPure_identity (r : LogResults) (o t : Int)
    (h : r.requests = [o, t]) :
    logEquiv (reduce_recordsPure r ⟨[0, 0, 0], [], []⟩) r := by
  refine ⟨?_, ?_, ?_⟩
  · rw [reduce_recordsPure_def]
    simp [h, tupGet]
  · simp only [reduce_recordsPure_def]
    exact dictEquiv_mergeDicts_nil r.customer_usage
  · simp only [reduce_recordsPure_def]
    exact dictEquiv_mergeDicts_nil r.popular_urls

end ApacheLog
